import Mathlib

/-!
Shallow embedding of the research-paper screening pipeline (`src/app.js`).

The pipeline runs six agents over a shared workflow state:
validation, metadata extraction, criteria generation, evaluation,
statistics aggregation, and top-10 selection.  Calls to the external
text-generation gateway are modelled as oracle functions: for one
document the gateway either throws (`Except.error`, modelling a rejected
`model.invoke` promise) or returns content, and the content either
decodes to a record (`some r`, modelling a successful `JSON.parse`) or
is unparsable (`none`, modelling a `JSON.parse` exception).
-/

set_option autoImplicit false

namespace Screening

/-- A document submitted for screening.  Fields are `Option String`
because the JavaScript objects may lack a key entirely; a present but
empty string is also treated as missing by the validator (JS falsiness). -/
structure Document where
  title : Option String
  abstract : Option String
  deriving Repr, DecidableEq

/-- JS falsiness for an optional string field: absent or empty. -/
def falsyField : Option String → Bool
  | none => true
  | some s => s = ""

/-- A document fails validation when either required field is falsy
(`!paper.title || !paper.abstract`). -/
def invalidDoc (p : Document) : Bool :=
  falsyField p.title || falsyField p.abstract

/-- The validation `for` loop: index of the first invalid paper, if any,
counting from `s`. -/
def findInvalidIdx (s : Nat) : List Document → Option Nat
  | [] => none
  | p :: ps => if invalidDoc p then some s else findInvalidIdx (s + 1) ps

/-- Agent 1 (`agent1_processInput`): requires exactly 50 papers, then
throws at the first paper with a missing/empty `title` or `abstract`,
naming its 1-based position. -/
def agent1_processInput (papers : List Document) : Except String Unit :=
  if papers.length ≠ 50 then
    Except.error "Expected exactly 50 research papers"
  else
    match findInvalidIdx 0 papers with
    | some i =>
        Except.error ("Paper " ++ toString (i + 1) ++
          " missing required fields: title, or abstract")
    | none => Except.ok ()

/-- A metadata record.  `Option` models presence of the JSON key: the
degraded fallback record built on parse failure omits `sample_size` and
`limitations` entirely, which `none` represents. -/
structure Metadata where
  paper_id : Nat
  original_index : Nat
  title : Option String
  authors : Option (List String)
  journal : Option String
  year : Option String
  keywords : Option (List String)
  research_domain : Option String
  methodology : Option String
  sample_size : Option String
  study_type : Option String
  main_findings : Option String
  limitations : Option String
  abstract_summary : Option String
  deriving Repr, DecidableEq

/-- The degraded metadata record built in `agent2_extractMetadata`'s
`catch (parseError)` branch: the document's own title, the first 200
characters of its abstract, sentinel strings for the other fields it
lists, and empty author/keyword lists.  The JS object literal has no
`sample_size` or `limitations` keys. -/
def fallbackMetadata (i : Nat) (paper : Document) : Metadata :=
  { paper_id := i + 1
    original_index := i
    title := some (paper.title.getD "")
    abstract_summary := some ((paper.abstract.getD "").take 200)
    research_domain := some "Not specified"
    methodology := some "Not specified"
    study_type := some "Not specified"
    main_findings := some "Not specified"
    keywords := some []
    authors := some []
    journal := some "Not specified"
    year := some "Not specified"
    sample_size := none
    limitations := none }

/-- Sequential per-document loop with an index, aborting the whole stage
at the first per-document action that throws — the shape shared by the
loops in agents 2 and 4 (an exception from `await model.invoke` is only
caught by the stage-level `catch`, which rethrows). -/
def mapExcept {α β : Type} (f : Nat → α → Except String β) :
    Nat → List α → Except String (List β)
  | _, [] => Except.ok []
  | i, a :: as =>
    match f i a with
    | Except.error e => Except.error e
    | Except.ok b =>
      match mapExcept f (i + 1) as with
      | Except.error e => Except.error e
      | Except.ok bs => Except.ok (b :: bs)

/-- One iteration of agent 2's loop for the document at index `i`.
`g2 i` models the gateway round trip: `.error` = the `model.invoke`
promise rejected (uncaught at document level, aborts the stage);
`.ok none` = the response content failed `JSON.parse` (fallback);
`.ok (some raw)` = parsed metadata, to which `paper_id`/`original_index`
are attached. -/
def agent2_step (g2 : Nat → Except String (Option Metadata))
    (i : Nat) (paper : Document) : Except String Metadata :=
  match g2 i with
  | Except.error e => Except.error e
  | Except.ok none => Except.ok (fallbackMetadata i paper)
  | Except.ok (some raw) =>
      Except.ok { raw with paper_id := i + 1, original_index := i }

/-- Agent 2 (`agent2_extractMetadata`): extract metadata for every
document in input order. -/
def agent2_extractMetadata (papers : List Document)
    (g2 : Nat → Except String (Option Metadata)) :
    Except String (List Metadata) :=
  mapExcept (agent2_step g2) 0 papers

/-- A generated screening criterion. -/
structure Criterion where
  id : Nat
  criterion : String
  description : String
  evaluation_focus : String
  deriving Repr, DecidableEq

/-- Agent 3 (`agent3_generateCriteria`): one aggregate gateway call.
`g3` models the round trip (`.error` = invoke rejected, `.ok none` =
unparsable content — both uncaught, hence stage-fatal), and a parsed
sequence whose length is not exactly 6 throws
"Failed to generate exactly 6 criteria". -/
def agent3_generateCriteria (g3 : Except String (Option (List Criterion))) :
    Except String (List Criterion) :=
  match g3 with
  | Except.error e => Except.error e
  | Except.ok none => Except.error "Unexpected token in JSON"
  | Except.ok (some criteria) =>
      if criteria.length = 6 then Except.ok criteria
      else Except.error "Failed to generate exactly 6 criteria"

/-- One `{criterion_id, response, reasoning}` entry of an evaluation. -/
structure EvalEntry where
  criterion_id : Nat
  response : String
  reasoning : String
  deriving Repr, DecidableEq

/-- One document's parsed evaluation result. -/
structure PaperEvaluation where
  paper_id : Nat
  title : String
  evaluations : List EvalEntry
  deriving Repr, DecidableEq

/-- The sanitization ternary: keep a recognized response, else coerce
to No. -/
def sanitizeResponse (r : String) : String :=
  if r = "Yes" ∨ r = "Maybe" ∨ r = "No" then r else "No"

/-- The fallback evaluation substituted when a document's evaluation
response cannot be parsed (or lacks a 6-entry `evaluations` list):
every generated criterion is rated `Maybe` with a fixed reasoning string. -/
def fallbackEvaluation (i : Nat) (paper : Document)
    (criteria : List Criterion) : PaperEvaluation :=
  { paper_id := i + 1
    title := paper.title.getD ""
    evaluations := criteria.map (fun c =>
      { criterion_id := c.id
        response := "Maybe"
        reasoning := "Evaluation failed, marked as Maybe" }) }

/-- One iteration of agent 4's loop.  A rejected invoke aborts the stage;
an unparsable response or a parsed response whose `evaluations` is not
exactly 6 entries long yields the fallback; otherwise every entry's
`response` is sanitized and the parsed record (with whatever `paper_id`
and `title` the gateway returned) is kept. -/
def agent4_step (criteria : List Criterion)
    (g4 : Nat → Except String (Option PaperEvaluation))
    (i : Nat) (paper : Document) : Except String PaperEvaluation :=
  match g4 i with
  | Except.error e => Except.error e
  | Except.ok none => Except.ok (fallbackEvaluation i paper criteria)
  | Except.ok (some ev) =>
      if ev.evaluations.length = 6 then
        Except.ok { ev with evaluations := ev.evaluations.map (fun e =>
          { e with response := sanitizeResponse e.response }) }
      else Except.ok (fallbackEvaluation i paper criteria)

/-- Agent 4 (`agent4_evaluatePapers`). -/
def agent4_evaluatePapers (papers : List Document) (criteria : List Criterion)
    (g4 : Nat → Except String (Option PaperEvaluation)) :
    Except String (List PaperEvaluation) :=
  mapExcept (agent4_step criteria g4) 0 papers

/-- A back-reference pushed into a statistics bucket:
`{paper_id, title, reasoning}`. -/
structure PaperRef where
  paper_id : Nat
  title : String
  reasoning : String
  deriving Repr, DecidableEq

/-- Per-criterion tallies and traceability buckets. -/
structure CriterionStat where
  criterion : String
  description : String
  yes_count : Nat
  maybe_count : Nat
  no_count : Nat
  yes_papers : List PaperRef
  maybe_papers : List PaperRef
  no_papers : List PaperRef
  deriving Repr, DecidableEq

/-- The zeroed statistic a criterion starts from. -/
def initStat (c : Criterion) : CriterionStat :=
  { criterion := c.criterion
    description := c.description
    yes_count := 0
    maybe_count := 0
    no_count := 0
    yes_papers := []
    maybe_papers := []
    no_papers := [] }

/-- The statistics map, as an association list keyed by criterion id
(modelling the JS object `stats`). -/
abbrev StatsMap : Type := List (Nat × CriterionStat)

/-- Replace the value of a keyed entry when its key matches. -/
def updPair (cid : Nat) (f : CriterionStat → CriterionStat) :
    Nat × CriterionStat → Nat × CriterionStat
  | (k, st) => if k = cid then (k, f st) else (k, st)

/-- Assignment `stats[id] = st` with JS object semantics: overwrite an
existing key, else add it. -/
def setStat (stats : StatsMap) (id : Nat) (st : CriterionStat) : StatsMap :=
  if stats.any (fun p => p.1 = id) then
    stats.map (updPair id (fun _ => st))
  else stats ++ [(id, st)]

/-- Lookup of `stats[cid]` followed by an in-place update when the key
is present; unknown criterion ids are silently skipped
(`if (criterionStat) { ... }`). -/
def updateStat (stats : StatsMap) (cid : Nat)
    (f : CriterionStat → CriterionStat) : StatsMap :=
  match stats.find? (fun p => p.1 = cid) with
  | none => stats
  | some _ => stats.map (updPair cid f)

/-- The `switch (eval.response)` body: bump the matching counter and
bucket; any other response falls through without a default case. -/
def bumpStat (pe : PaperEvaluation) (e : EvalEntry)
    (st : CriterionStat) : CriterionStat :=
  if e.response = "Yes" then
    { st with yes_count := st.yes_count + 1
              yes_papers := st.yes_papers ++
                [{ paper_id := pe.paper_id, title := pe.title, reasoning := e.reasoning }] }
  else if e.response = "Maybe" then
    { st with maybe_count := st.maybe_count + 1
              maybe_papers := st.maybe_papers ++
                [{ paper_id := pe.paper_id, title := pe.title, reasoning := e.reasoning }] }
  else if e.response = "No" then
    { st with no_count := st.no_count + 1
              no_papers := st.no_papers ++
                [{ paper_id := pe.paper_id, title := pe.title, reasoning := e.reasoning }] }
  else st

/-- Process one evaluation entry of one document. -/
def applyEntry (pe : PaperEvaluation) (stats : StatsMap) (e : EvalEntry) : StatsMap :=
  updateStat stats e.criterion_id (bumpStat pe e)

/-- Process all six entries of one document. -/
def applyPaper (stats : StatsMap) (pe : PaperEvaluation) : StatsMap :=
  pe.evaluations.foldl (applyEntry pe) stats

/-- The initialization loop of agent 5: one zeroed statistic per
generated criterion. -/
def initStats (criteria : List Criterion) : StatsMap :=
  criteria.foldl (fun acc c => setStat acc c.id (initStat c)) []

/-- Agent 5 (`agent5_generateStats`): initialize a zeroed statistic per
generated criterion, then count every document's responses. -/
def agent5_generateStats (criteria : List Criterion)
    (evalResults : List PaperEvaluation) : StatsMap :=
  evalResults.foldl applyPaper (initStats criteria)

/-- The tier base of the if/else chain in `agent6_selectTopPapers`,
before the bonus is added. -/
def tierBase (y m : Nat) : Nat :=
  if y = 6 then 1000
  else if y = 5 ∧ m = 1 then 900
  else if y = 4 ∧ m = 2 then 800
  else if 3 ≤ y ∧ 5 ≤ y + m then 700
  else 0

/-- The `isEligible` flag set by the same chain. -/
def isEligible (y m : Nat) : Bool :=
  if y = 6 then true
  else if y = 5 ∧ m = 1 then true
  else if y = 4 ∧ m = 2 then true
  else if 3 ≤ y ∧ 5 ≤ y + m then true
  else false

/-- The final `eligibilityScore` after the bonus line
`eligibilityScore += (yesCount * 10) + (maybeCount * 5)`. -/
def eligibilityScore (y m : Nat) : Nat :=
  tierBase y m + (y * 10 + m * 5)

/-- A scored document as built by agent 6.  `original_index` is computed
as `paper_id - 1` over the integers (a JS number), not clamped at zero. -/
structure ScoredPaper where
  paper_id : Nat
  title : String
  yes_count : Nat
  maybe_count : Nat
  no_count : Nat
  eligibility_score : Nat
  is_eligible : Bool
  evaluations : List EvalEntry
  original_index : Int
  deriving Repr, DecidableEq

/-- Tally and score one document's evaluation record. -/
def scorePaper (pe : PaperEvaluation) : ScoredPaper :=
  let y := pe.evaluations.countP (fun e => e.response = "Yes")
  let m := pe.evaluations.countP (fun e => e.response = "Maybe")
  let n := pe.evaluations.countP (fun e => e.response = "No")
  { paper_id := pe.paper_id
    title := pe.title
    yes_count := y
    maybe_count := m
    no_count := n
    eligibility_score := eligibilityScore y m
    is_eligible := isEligible y m
    evaluations := pe.evaluations
    original_index := (pe.paper_id : Int) - 1 }

/-- Insert into a descending-sorted list, after every element of score
`≥` the new one — the placement a stable sort gives an element arriving
later than the current accumulator. -/
def insertDesc (x : ScoredPaper) : List ScoredPaper → List ScoredPaper
  | [] => [x]
  | y :: ys =>
      if x.eligibility_score ≤ y.eligibility_score then y :: insertDesc x ys
      else x :: y :: ys

/-- The sort `scoredPapers.sort((a, b) => b.eligibility_score - a.eligibility_score)`:
descending by score, stable (ties keep original order), as
`Array.prototype.sort` guarantees. -/
def sortByScoreDesc (l : List ScoredPaper) : List ScoredPaper :=
  l.foldl (fun acc x => insertDesc x acc) []

/-- The selection step of agent 6, before the join with the original
documents: sort, then take the top 10 eligible papers, topping up from
the highest-scoring non-eligible ones when fewer than 10 are eligible. -/
def selectPapersCore (evalResults : List PaperEvaluation) : List ScoredPaper :=
  let scored := evalResults.map scorePaper
  let sorted := sortByScoreDesc scored
  let eligiblePapers := sorted.filter (fun p => p.is_eligible)
  if 10 ≤ eligiblePapers.length then
    eligiblePapers.take 10
  else
    let nonEligible := sorted.filter (fun p => !p.is_eligible)
    eligiblePapers ++ nonEligible.take (10 - eligiblePapers.length)

/-- List indexing by a JS number: a negative or out-of-range index reads
`undefined`, modelled as `none`. -/
def listGetInt {α : Type} (xs : List α) (i : Int) : Option α :=
  if 0 ≤ i then xs.get? i.toNat else none

/-- A selected paper after the join
`{...paper, original_paper: inputPapers[idx], metadata: extractedMetadata[idx]}`. -/
structure SelectedPaper extends ScoredPaper where
  original_paper : Option Document
  metadata : Option Metadata
  deriving Repr, DecidableEq

/-- Agent 6 (`agent6_selectTopPapers`): score, sort, select, and join
each selected record with the input document and metadata at its
`original_index`. -/
def agent6_selectTopPapers (papers : List Document) (meta : List Metadata)
    (evalResults : List PaperEvaluation) : List SelectedPaper :=
  (selectPapersCore evalResults).map (fun p =>
    { toScoredPaper := p
      original_paper := listGetInt papers p.original_index
      metadata := listGetInt meta p.original_index })

/-- Everything the pipeline produces on success. -/
structure WorkflowResult where
  meta : List Metadata
  criteria : List Criterion
  evalResults : List PaperEvaluation
  stats : StatsMap
  selected : List SelectedPaper
  deriving Repr, DecidableEq

/-- The `StateGraph` executor: agents run in a fixed linear order over
the shared state; a stage that throws aborts the run (no later stage
executes). -/
def runPipeline (papers : List Document)
    (g2 : Nat → Except String (Option Metadata))
    (g3 : Except String (Option (List Criterion)))
    (g4 : Nat → Except String (Option PaperEvaluation)) :
    Except String WorkflowResult :=
  match agent1_processInput papers with
  | Except.error e => Except.error e
  | Except.ok _ =>
    match agent2_extractMetadata papers g2 with
    | Except.error e => Except.error e
    | Except.ok meta =>
      match agent3_generateCriteria g3 with
      | Except.error e => Except.error e
      | Except.ok criteria =>
        match agent4_evaluatePapers papers criteria g4 with
        | Except.error e => Except.error e
        | Except.ok evalResults =>
          let stats := agent5_generateStats criteria evalResults
          let selected := agent6_selectTopPapers papers meta evalResults
          Except.ok { meta := meta, criteria := criteria,
                      evalResults := evalResults, stats := stats,
                      selected := selected }

/-- One entry of the response's `selected_papers` array. -/
structure SelectedPaperOut where
  rank : Nat
  paper_id : Nat
  title : String
  eligibility_score : Nat
  yes_count : Nat
  maybe_count : Nat
  no_count : Nat
  detailed_evaluations : List EvalEntry
  metadata : Option Metadata
  deriving Repr, DecidableEq

/-- Ranking via `finalSelectedPapers.indexOf(paper) + 1` — each mapped
object
is a fresh reference, so `indexOf` returns the element's position. -/
def buildSelectedOut (sel : List SelectedPaper) : List SelectedPaperOut :=
  sel.enum.map (fun p =>
    { rank := p.1 + 1
      paper_id := p.2.paper_id
      title := p.2.title
      eligibility_score := p.2.eligibility_score
      yes_count := p.2.yes_count
      maybe_count := p.2.maybe_count
      no_count := p.2.no_count
      detailed_evaluations := p.2.evaluations
      metadata := p.2.metadata })

/-- The success envelope of `POST /screen-papers`. -/
structure SuccessResponse where
  workflow_steps : String
  input_papers_count : Nat
  generated_criteria : List Criterion
  criteria_statistics : StatsMap
  selected_papers_count : Nat
  selected_papers : List SelectedPaperOut
  errors : List String
  deriving Repr, DecidableEq

/-- The endpoint's outcome: a success envelope, or the 500 failure
response `{success: false, error}` — which carries no `selected_papers`
field at all. -/
inductive RunResult where
  | success (resp : SuccessResponse)
  | failure (error : String)
  deriving Repr, DecidableEq

/-- The `/screen-papers` handler around the workflow. -/
def screenPapers (papers : List Document)
    (g2 : Nat → Except String (Option Metadata))
    (g3 : Except String (Option (List Criterion)))
    (g4 : Nat → Except String (Option PaperEvaluation)) : RunResult :=
  match runPipeline papers g2 g3 g4 with
  | Except.error e => RunResult.failure e
  | Except.ok r =>
      RunResult.success
        { workflow_steps := "Top 10 Selected"
          input_papers_count := papers.length
          generated_criteria := r.criteria
          criteria_statistics := r.stats
          selected_papers_count := r.selected.length
          selected_papers := buildSelectedOut r.selected
          errors := [] }

/-! ## Spec-side reference definitions

These follow the specification's words, to be compared with the
definitions above, which follow the source. -/

/-- The tier table of spec §4.6, read as an ordered case list:
1000 if `yes_count == 6`; 900 if `yes_count == 5 and maybe_count == 1`;
800 if `yes_count == 4 and maybe_count == 2`; 700 if `yes_count >= 3 and
yes_count + maybe_count >= 5`; 0 otherwise. -/
def tierBaseSpec (y m : Nat) : Nat :=
  if y = 6 then 1000
  else if y = 5 ∧ m = 1 then 900
  else if y = 4 ∧ m = 2 then 800
  else if 3 ≤ y ∧ 5 ≤ y + m then 700
  else 0

/-- Eligibility per the spec's tier table: true exactly in the first
four cases. -/
def eligibleSpec (y m : Nat) : Prop :=
  y = 6 ∨ (y = 5 ∧ m = 1) ∨ (y = 4 ∧ m = 2) ∨ (3 ≤ y ∧ 5 ≤ y + m)

instance (y m : Nat) : Decidable (eligibleSpec y m) := by
  unfold eligibleSpec; infer_instance

/-- The spec's selection rule, stated as one formula: after the stable
descending sort, list the eligible documents (in sorted order) ahead of
the ineligible ones (in sorted order) and take the first 10 — which is
"the top 10 eligible if at least 10 are eligible, otherwise all eligible
plus the highest-scoring ineligible until 10 are selected, or fewer if
the pool has fewer than 10". -/
def selectionSpec (evalResults : List PaperEvaluation) : List ScoredPaper :=
  let sorted := sortByScoreDesc (evalResults.map scorePaper)
  (sorted.filter (fun p => p.is_eligible) ++
    sorted.filter (fun p => !p.is_eligible)).take 10

/-! ## Helper lemmas -/

/-- The code's score/eligibility chain agrees with the spec's tier table
plus the always-applied bonus. -/
theorem eligibilityScore_eq_spec (y m : Nat) :
    eligibilityScore y m = tierBaseSpec y m + (10 * y + 5 * m) ∧
      (isEligible y m = true ↔ eligibleSpec y m) := by
  constructor
  · unfold eligibilityScore tierBase tierBaseSpec
    ring_nf
  · unfold isEligible eligibleSpec
    split_ifs with h1 h2 h3 h4 <;> simp_all

/-- Any ineligible (yes, maybe) pair with both counts below 7 scores
below 850 (in fact at most 40) — checked by enumeration. -/
theorem ineligible_score_lt :
    ∀ y < 7, ∀ m < 7, isEligible y m = false →
      eligibilityScore y m < eligibilityScore 4 2 := by
  decide

/-- Outputs of `mapExcept` come from applying the step to an input
element. -/
theorem mapExcept_mem {α β : Type} (f : Nat → α → Except String β) :
    ∀ (l : List α) (i : Nat) (bs : List β),
      mapExcept f i l = Except.ok bs →
      ∀ b ∈ bs, ∃ j a, a ∈ l ∧ f j a = Except.ok b := by
  intro l
  induction l with
  | nil =>
    intro i bs h b hb
    simp only [mapExcept] at h
    cases h
    simp at hb
  | cons a as ih =>
    intro i bs h b hb
    simp only [mapExcept] at h
    cases hfa : f i a with
    | error e => rw [hfa] at h; cases h
    | ok b0 =>
      rw [hfa] at h
      cases hrest : mapExcept f (i + 1) as with
      | error e => rw [hrest] at h; cases h
      | ok bs0 =>
        rw [hrest] at h
        cases h
        rcases List.mem_cons.mp hb with hb0 | hbs
        · exact ⟨i, a, List.mem_cons_self a as, by rw [hfa, hb0]⟩
        · rcases ih (i + 1) bs0 hrest b hbs with ⟨j, a', ha', hfa'⟩
          exact ⟨j, a', List.mem_cons_of_mem a ha', hfa'⟩

/-- A successful `mapExcept` run produces one output per input. -/
theorem mapExcept_ok_length {α β : Type} (f : Nat → α → Except String β) :
    ∀ (l : List α) (i : Nat) (bs : List β),
      mapExcept f i l = Except.ok bs → bs.length = l.length := by
  intro l
  induction l with
  | nil => intro i bs h; simp only [mapExcept] at h; cases h; rfl
  | cons a as ih =>
    intro i bs h
    simp only [mapExcept] at h
    cases hfa : f i a with
    | error e => rw [hfa] at h; cases h
    | ok b =>
      rw [hfa] at h
      cases hrest : mapExcept f (i + 1) as with
      | error e => rw [hrest] at h; cases h
      | ok bs0 =>
        rw [hrest] at h
        cases h
        simp [ih (i + 1) bs0 hrest]

/-- Positionally, the `j`-th output of a successful `mapExcept` run is
the step applied to the `j`-th input at index `i + j`. -/
theorem mapExcept_ok_get {α β : Type} (f : Nat → α → Except String β) :
    ∀ (l : List α) (i : Nat) (bs : List β),
      mapExcept f i l = Except.ok bs →
      ∀ j, j < l.length →
        ∃ a b, l.get? j = some a ∧ bs.get? j = some b ∧
          f (i + j) a = Except.ok b := by
  intro l
  induction l with
  | nil => intro i bs _ j hj; simp at hj
  | cons a as ih =>
    intro i bs h j hj
    simp only [mapExcept] at h
    cases hfa : f i a with
    | error e => rw [hfa] at h; cases h
    | ok b =>
      rw [hfa] at h
      cases hrest : mapExcept f (i + 1) as with
      | error e => rw [hrest] at h; cases h
      | ok bs0 =>
        rw [hrest] at h
        cases h
        cases j with
        | zero => exact ⟨a, b, rfl, rfl, by simpa using hfa⟩
        | succ j' =>
          have hj' : j' < as.length := by simpa using hj
          rcases ih (i + 1) bs0 hrest j' hj' with ⟨a', b', h1, h2, h3⟩
          refine ⟨a', b', by simpa using h1, by simpa using h2, ?_⟩
          have harith : i + (j' + 1) = (i + 1) + j' := by omega
          rw [harith]
          exact h3

/-- If every step succeeds, the whole loop succeeds. -/
theorem mapExcept_all_ok {α β : Type} (f : Nat → α → Except String β)
    (hf : ∀ j a, ∃ b, f j a = Except.ok b) :
    ∀ (l : List α) (i : Nat),
      ∃ bs, mapExcept f i l = Except.ok bs ∧ bs.length = l.length := by
  intro l
  induction l with
  | nil => intro i; exact ⟨[], rfl, rfl⟩
  | cons a as ih =>
    intro i
    rcases hf i a with ⟨b, hb⟩
    rcases ih (i + 1) with ⟨bs, hbs, hlen⟩
    refine ⟨b :: bs, ?_, by simp [hlen]⟩
    simp only [mapExcept]
    rw [hb, hbs]

/-- An agent-2 step succeeds whenever its gateway call does not throw. -/
theorem agent2_step_ok (g2 : Nat → Except String (Option Metadata))
    (hg2 : ∀ i, ∃ v, g2 i = Except.ok v) :
    ∀ i paper, ∃ b, agent2_step g2 i paper = Except.ok b := by
  intro i paper
  rcases hg2 i with ⟨v, hv⟩
  cases v with
  | none => exact ⟨fallbackMetadata i paper, by simp [agent2_step, hv]⟩
  | some raw =>
      exact ⟨{ raw with paper_id := i + 1, original_index := i },
        by simp [agent2_step, hv]⟩

/-- An agent-4 step succeeds whenever its gateway call does not throw. -/
theorem agent4_step_ok (criteria : List Criterion)
    (g4 : Nat → Except String (Option PaperEvaluation))
    (hg4 : ∀ i, ∃ v, g4 i = Except.ok v) :
    ∀ i paper, ∃ b, agent4_step criteria g4 i paper = Except.ok b := by
  intro i paper
  rcases hg4 i with ⟨v, hv⟩
  cases v with
  | none => exact ⟨fallbackEvaluation i paper criteria, by simp [agent4_step, hv]⟩
  | some ev =>
      by_cases hlen : ev.evaluations.length = 6
      · refine ⟨{ ev with evaluations := ev.evaluations.map (fun e =>
          { e with response := sanitizeResponse e.response }) }, ?_⟩
        simp [agent4_step, hv, hlen]
      · exact ⟨fallbackEvaluation i paper criteria,
          by simp [agent4_step, hv, hlen]⟩

/-- The loop `findInvalidIdx` finds exactly the first invalid position. -/
theorem findInvalidIdx_spec :
    ∀ (l : List Document) (s i : Nat) (d : Document),
      l.get? i = some d → invalidDoc d = true →
      (∀ j, j < i → (l.get? j).all (fun e => !invalidDoc e) = true) →
      findInvalidIdx s l = some (s + i) := by
  intro l
  induction l with
  | nil => intro s i d h; simp at h
  | cons x xs ih =>
    intro s i d hget hbad hfirst
    cases i with
    | zero =>
      simp only [List.get?] at hget
      cases hget
      simp [findInvalidIdx, hbad]
    | succ i' =>
      have hx0 := hfirst 0 (Nat.succ_pos i')
      simp only [List.get?, Option.all] at hx0
      have hx : invalidDoc x = false := by
        cases hinv : invalidDoc x
        · rfl
        · rw [hinv] at hx0; simp at hx0
      simp only [findInvalidIdx, hx, if_false, Bool.false_eq_true]
      have := ih (s + 1) i' d (by simpa using hget) hbad
        (fun j hj => by
          have := hfirst (j + 1) (by omega)
          simpa using this)
      rw [this]
      congr 1
      omega

/-- A sanitized response is one of the three allowed strings. -/
theorem sanitizeResponse_mem (r : String) :
    sanitizeResponse r = "Yes" ∨ sanitizeResponse r = "Maybe" ∨
      sanitizeResponse r = "No" := by
  unfold sanitizeResponse
  split_ifs with h
  · exact h
  · right; right; rfl

/-- Every evaluation record produced by one agent-4 step has all its
responses in {Yes, Maybe, No}. -/
theorem agent4_step_responses (criteria : List Criterion)
    (g4 : Nat → Except String (Option PaperEvaluation))
    (i : Nat) (paper : Document) (pe : PaperEvaluation)
    (h : agent4_step criteria g4 i paper = Except.ok pe) :
    ∀ e ∈ pe.evaluations,
      e.response = "Yes" ∨ e.response = "Maybe" ∨ e.response = "No" := by
  intro e he
  unfold agent4_step at h
  split at h
  · cases h
  · cases h
    simp only [fallbackEvaluation, List.mem_map] at he
    rcases he with ⟨c, _, rfl⟩
    right; left; rfl
  · split at h
    · cases h
      simp only [List.mem_map] at he
      rcases he with ⟨e0, _, rfl⟩
      exact sanitizeResponse_mem e0.response
    · cases h
      simp only [fallbackEvaluation, List.mem_map] at he
      rcases he with ⟨c, _, rfl⟩
      right; left; rfl

/-! ## Concrete objects used by witnesses and counterexamples -/

/-- A well-formed document. -/
def docA : Document := { title := some "t", abstract := some "a" }

/-- An all-Yes evaluation entry. -/
def yesEntry : EvalEntry := { criterion_id := 1, response := "Yes", reasoning := "r" }

/-- An entry with an out-of-range response. -/
def perhapsEntry : EvalEntry :=
  { criterion_id := 1, response := "Perhaps", reasoning := "r" }

/-- An entry whose response has been coerced to No. -/
def noEntry : EvalEntry := { criterion_id := 1, response := "No", reasoning := "r" }

/-- An evaluation record with six Yes entries. -/
def allYesEval : PaperEvaluation :=
  { paper_id := 1, title := "t", evaluations := List.replicate 6 yesEntry }

/-- An evaluation record with six out-of-range responses. -/
def perhapsEval : PaperEvaluation :=
  { paper_id := 1, title := "t", evaluations := List.replicate 6 perhapsEntry }

/-- The record `perhapsEval` after sanitization. -/
def allNoEval : PaperEvaluation :=
  { paper_id := 1, title := "t", evaluations := List.replicate 6 noEntry }

/-- A Yes entry for a given criterion id. -/
def yesEntryFor (c : Nat) : EvalEntry :=
  { criterion_id := c, response := "Yes", reasoning := "r" }

/-- A well-formed evaluation record: one Yes entry per criterion id 1..6. -/
def sixIdEval : PaperEvaluation :=
  { paper_id := 1, title := "t",
    evaluations := [yesEntryFor 1, yesEntryFor 2, yesEntryFor 3,
      yesEntryFor 4, yesEntryFor 5, yesEntryFor 6] }

/-- An evaluation gateway that echoes the requested `paper_id`
faithfully, as the prompt instructs. -/
def g4echo : Nat → Except String (Option PaperEvaluation) :=
  fun i => Except.ok (some
    { paper_id := i + 1
      title := "t"
      evaluations := List.replicate 6 yesEntry })

/-- A parsed evaluation whose echoed `paper_id` is 7 regardless of the
document it was requested for. -/
def wrongIdEval : PaperEvaluation :=
  { paper_id := 7, title := "t", evaluations := List.replicate 6 yesEntry }

/-- An evaluation gateway that echoes the wrong `paper_id`. -/
def g4wrongId : Nat → Except String (Option PaperEvaluation) :=
  fun _ => Except.ok (some wrongIdEval)

/-- A document missing its abstract. -/
def docNoAbstract : Document := { title := some "t", abstract := none }

/-- A valid 50-document batch. -/
def docs50 : List Document := List.replicate 50 docA

/-- A 49-document batch. -/
def docs49 : List Document := List.replicate 49 docA

/-- A 50-document batch whose third document is missing its abstract. -/
def docs50bad : List Document :=
  List.replicate 2 docA ++ docNoAbstract :: List.replicate 47 docA

/-- A concrete criterion with a given id. -/
def mkCriterion (i : Nat) : Criterion :=
  { id := i, criterion := "c", description := "d", evaluation_focus := "f" }

/-- Six concrete criteria with ids 1..6. -/
def criteria6 : List Criterion :=
  [mkCriterion 1, mkCriterion 2, mkCriterion 3,
   mkCriterion 4, mkCriterion 5, mkCriterion 6]

/-- Five concrete criteria — a wrongly-shaped generation result. -/
def criteria5 : List Criterion :=
  [mkCriterion 1, mkCriterion 2, mkCriterion 3, mkCriterion 4, mkCriterion 5]

/-- A metadata gateway whose responses never parse (but never throw). -/
def g2unparsable : Nat → Except String (Option Metadata) :=
  fun _ => Except.ok none

/-- An evaluation gateway whose responses never parse (but never throw). -/
def g4unparsable : Nat → Except String (Option PaperEvaluation) :=
  fun _ => Except.ok none

/-- An evaluation gateway that always returns six Yes entries. -/
def g4allYes : Nat → Except String (Option PaperEvaluation) :=
  fun _ => Except.ok (some allYesEval)

/-! ## Claims -/

/-- C1: for every document whose six evaluations tally
`yes_count + maybe_count + no_count == 6`, the computed
`eligibility_score` is the spec's tier base plus the bonus
`10*yes_count + 5*maybe_count` (the bonus applied in every case,
including ineligible ones), and `is_eligible` holds exactly in the four
eligible tiers. -/
theorem C1_score_is_tier_plus_bonus (pe : PaperEvaluation)
    (_h : (scorePaper pe).yes_count + (scorePaper pe).maybe_count +
      (scorePaper pe).no_count = 6) :
    (scorePaper pe).eligibility_score
        = tierBaseSpec (scorePaper pe).yes_count (scorePaper pe).maybe_count
          + (10 * (scorePaper pe).yes_count + 5 * (scorePaper pe).maybe_count) ∧
      ((scorePaper pe).is_eligible = true ↔
        eligibleSpec (scorePaper pe).yes_count (scorePaper pe).maybe_count) := by
  have := eligibilityScore_eq_spec (scorePaper pe).yes_count (scorePaper pe).maybe_count
  simpa [scorePaper] using this

/-- Witness for C1 at a concrete all-Yes document. -/
theorem C1_score_is_tier_plus_bonus_witness :
    (scorePaper allYesEval).yes_count + (scorePaper allYesEval).maybe_count +
      (scorePaper allYesEval).no_count = 6 ∧
    (scorePaper allYesEval).eligibility_score
      = tierBaseSpec 6 0 + (10 * 6 + 5 * 0) := by
  refine ⟨by decide, ?_⟩
  have := (C1_score_is_tier_plus_bonus allYesEval (by decide)).1
  simpa using this

/-- C2: for all tallies with `yes + maybe + no = 6`, the 6-Yes score
strictly dominates the 5-Yes/1-Maybe score, which strictly dominates the
4-Yes/2-Maybe score, which strictly dominates every ineligible tally's
score. -/
theorem C2_tier_ordering (y m n : Nat) (h : y + m + n = 6) :
    eligibilityScore 5 1 < eligibilityScore 6 0 ∧
      eligibilityScore 4 2 < eligibilityScore 5 1 ∧
      (isEligible y m = false →
        eligibilityScore y m < eligibilityScore 4 2) := by
  refine ⟨by decide, by decide, fun hne => ?_⟩
  exact ineligible_score_lt y (by omega) m (by omega) hne

/-- Witness for C2 at the ineligible tally 2 Yes / 4 Maybe. -/
theorem C2_tier_ordering_witness :
    (2 + 4 + 0 = 6) ∧ isEligible 2 4 = false ∧
      eligibilityScore 2 4 < eligibilityScore 4 2 := by
  refine ⟨rfl, by decide, ?_⟩
  exact (C2_tier_ordering 2 4 0 rfl).2.2 (by decide)

/-- C9: every record in agent 4's successful output has all responses in
{Yes, Maybe, No} — unrecognized responses were coerced to "No" per
entry, and fallback records only contain "Maybe". -/
theorem C9_responses_sanitized (papers : List Document)
    (criteria : List Criterion)
    (g4 : Nat → Except String (Option PaperEvaluation))
    (evs : List PaperEvaluation)
    (h : agent4_evaluatePapers papers criteria g4 = Except.ok evs) :
    ∀ pe ∈ evs, ∀ e ∈ pe.evaluations,
      e.response = "Yes" ∨ e.response = "Maybe" ∨ e.response = "No" := by
  intro pe hpe e he
  rcases mapExcept_mem (agent4_step criteria g4) papers 0 evs h pe hpe with
    ⟨j, paper, _, hstep⟩
  exact agent4_step_responses criteria g4 j paper pe hstep e he

/-- Witness for C9: a gateway that returns an out-of-range response has
it coerced before aggregation. -/
theorem C9_responses_sanitized_witness :
    agent4_evaluatePapers [docA] [] (fun _ => Except.ok (some perhapsEval))
      = Except.ok [allNoEval] ∧
    (∀ pe ∈ [allNoEval], ∀ e ∈ pe.evaluations,
      e.response = "Yes" ∨ e.response = "Maybe" ∨ e.response = "No") := by
  constructor
  · rfl
  · exact C9_responses_sanitized [docA] []
      (fun _ => Except.ok (some perhapsEval)) [allNoEval] (by rfl)

/-- C10: a run whose input count differs from 50, or whose first invalid
document (missing/empty `title` or `abstract`) sits at position `i`,
fails validation with the corresponding message — for every gateway, so
no gateway call can have been involved — and the missing-field message
names the document's 1-based position. -/
theorem C10_validation_first (papers : List Document)
    (g2 : Nat → Except String (Option Metadata))
    (g3 : Except String (Option (List Criterion)))
    (g4 : Nat → Except String (Option PaperEvaluation)) :
    (papers.length ≠ 50 →
      runPipeline papers g2 g3 g4 =
        Except.error "Expected exactly 50 research papers") ∧
    (∀ i d, papers.length = 50 → papers.get? i = some d →
      invalidDoc d = true →
      (∀ j, j < i → (papers.get? j).all (fun e => !invalidDoc e) = true) →
      runPipeline papers g2 g3 g4 =
        Except.error ("Paper " ++ toString (i + 1) ++
          " missing required fields: title, or abstract")) := by
  constructor
  · intro hlen
    have h1 : agent1_processInput papers =
        Except.error "Expected exactly 50 research papers" := by
      unfold agent1_processInput
      rw [if_pos hlen]
    unfold runPipeline
    rw [h1]
  · intro i d hlen hget hbad hfirst
    have hidx : findInvalidIdx 0 papers = some i := by
      have := findInvalidIdx_spec papers 0 i d hget hbad hfirst
      simpa using this
    have h1 : agent1_processInput papers =
        Except.error ("Paper " ++ toString (i + 1) ++
          " missing required fields: title, or abstract") := by
      unfold agent1_processInput
      rw [if_neg (by omega), hidx]
    unfold runPipeline
    rw [h1]

/-- Witness for C10: a 49-document batch fails with the count message,
and a 50-document batch whose third document lacks an abstract fails
naming "Paper 3" — in both cases for gateways that are never consulted. -/
theorem C10_validation_first_witness :
    runPipeline docs49 g2unparsable (Except.ok (some criteria6)) g4unparsable
      = Except.error "Expected exactly 50 research papers" ∧
    runPipeline docs50bad g2unparsable (Except.ok (some criteria6)) g4unparsable
      = Except.error "Paper 3 missing required fields: title, or abstract" := by
  constructor
  · exact (C10_validation_first docs49 g2unparsable
      (Except.ok (some criteria6)) g4unparsable).1 (by decide)
  · have h := (C10_validation_first docs50bad g2unparsable
      (Except.ok (some criteria6)) g4unparsable).2 2 docNoAbstract
      (by decide) (by decide) (by decide) (by decide)
    simpa using h

/-- C8: when criteria generation parses to a sequence of length ≠ 6 (for
example 5), the stage throws, the error propagates through the executor
(agents 4–6 never run), and the endpoint answers with the failure
response, which carries no `selected_papers`. -/
theorem C8_criteria_shape_fatal (papers : List Document)
    (g2 : Nat → Except String (Option Metadata))
    (g4 : Nat → Except String (Option PaperEvaluation))
    (cs : List Criterion)
    (hval : agent1_processInput papers = Except.ok ())
    (hg2 : ∀ i, ∃ v, g2 i = Except.ok v)
    (hlen : cs.length ≠ 6) :
    runPipeline papers g2 (Except.ok (some cs)) g4
        = Except.error "Failed to generate exactly 6 criteria" ∧
      screenPapers papers g2 (Except.ok (some cs)) g4
        = RunResult.failure "Failed to generate exactly 6 criteria" := by
  rcases mapExcept_all_ok (agent2_step g2) (agent2_step_ok g2 hg2) papers 0 with
    ⟨meta, hmeta, _⟩
  have h3 : agent3_generateCriteria (Except.ok (some cs)) =
      Except.error "Failed to generate exactly 6 criteria" := by
    unfold agent3_generateCriteria
    simp [hlen]
  have hrun : runPipeline papers g2 (Except.ok (some cs)) g4
      = Except.error "Failed to generate exactly 6 criteria" := by
    unfold runPipeline
    rw [hval]
    show (match agent2_extractMetadata papers g2 with
      | Except.error e => Except.error e
      | Except.ok meta => _) = _
    rw [show agent2_extractMetadata papers g2 = Except.ok meta from hmeta, h3]
  refine ⟨hrun, ?_⟩
  unfold screenPapers
  rw [hrun]

/-- Witness for C8: a valid batch with a 5-criteria generation result
aborts with the fatal shape error. -/
theorem C8_criteria_shape_fatal_witness :
    screenPapers docs50 g2unparsable (Except.ok (some criteria5)) g4unparsable
      = RunResult.failure "Failed to generate exactly 6 criteria" := by
  exact (C8_criteria_shape_fatal docs50 g2unparsable g4unparsable criteria5
    rfl (fun i => ⟨none, rfl⟩) (by decide)).2

/-- Counterexample to C4 as stated: a gateway call that throws for a
single document (here document 0 of a valid 50-document batch) is not
recovered by the per-document fallback — it aborts the whole run. -/
theorem C4_counterexample :
    runPipeline docs50 (fun _ => Except.error "gateway unavailable")
        (Except.ok (some criteria6)) g4unparsable
      = Except.error "gateway unavailable" := rfl

/-- C4 (amended): per-document *parse* failures are recovered locally —
whenever no gateway call throws, agents 2 and 4 succeed with one record
per document no matter which responses are malformed; a throwing call,
by contrast, aborts the stage (see the counterexample). -/
theorem C4_parse_failures_contained (papers : List Document)
    (criteria : List Criterion)
    (g2 : Nat → Except String (Option Metadata))
    (g4 : Nat → Except String (Option PaperEvaluation))
    (hg2 : ∀ i, ∃ v, g2 i = Except.ok v)
    (hg4 : ∀ i, ∃ v, g4 i = Except.ok v) :
    (∃ ms, agent2_extractMetadata papers g2 = Except.ok ms ∧
      ms.length = papers.length) ∧
    (∃ es, agent4_evaluatePapers papers criteria g4 = Except.ok es ∧
      es.length = papers.length) := by
  constructor
  · exact mapExcept_all_ok _ (agent2_step_ok g2 hg2) papers 0
  · exact mapExcept_all_ok _ (agent4_step_ok criteria g4 hg4) papers 0

/-- Witness for C4 (amended): everything-unparsable gateways still let
both per-document stages finish over the full batch. -/
theorem C4_parse_failures_contained_witness :
    (∃ ms, agent2_extractMetadata docs50 g2unparsable = Except.ok ms ∧
      ms.length = docs50.length) ∧
    (∃ es, agent4_evaluatePapers docs50 criteria6 g4unparsable = Except.ok es ∧
      es.length = docs50.length) := by
  exact C4_parse_failures_contained docs50 criteria6 g2unparsable g4unparsable
    (fun i => ⟨none, rfl⟩) (fun i => ⟨none, rfl⟩)

/-- Counterexample to C5 as stated: the substituted metadata record does
not set every unknown metadata field to "Not specified" — its
`sample_size` and `limitations` keys are absent altogether. -/
theorem C5_counterexample :
    agent2_extractMetadata [docA] g2unparsable
        = Except.ok [fallbackMetadata 0 docA] ∧
      (fallbackMetadata 0 docA).sample_size = none ∧
      (fallbackMetadata 0 docA).limitations = none ∧
      (none : Option String) ≠ some "Not specified" := by
  exact ⟨rfl, rfl, rfl, by decide⟩

/-- C5 (amended): for a document whose gateway responses cannot be
parsed, the substituted metadata uses the document's own title, the
first 200 characters of its abstract, the sentinel "Not specified" for
the unknown fields the fallback carries (research_domain, methodology,
study_type, main_findings, journal, year — `sample_size` and
`limitations` are omitted, not set to the sentinel), and empty
author/keyword lists; the substituted evaluation rates every criterion
"Maybe" with the fixed failure reasoning; and both stages still
complete. -/
theorem C5_fallback_contents (papers : List Document)
    (criteria : List Criterion)
    (g2 : Nat → Except String (Option Metadata))
    (g4 : Nat → Except String (Option PaperEvaluation))
    (hg2 : ∀ j, ∃ v, g2 j = Except.ok v)
    (hg4 : ∀ j, ∃ v, g4 j = Except.ok v)
    (i : Nat) (paper : Document)
    (hget : papers.get? i = some paper)
    (h2 : g2 i = Except.ok none)
    (h4 : g4 i = Except.ok none) :
    ∃ ms es,
      agent2_extractMetadata papers g2 = Except.ok ms ∧
      agent4_evaluatePapers papers criteria g4 = Except.ok es ∧
      ms.get? i = some (fallbackMetadata i paper) ∧
      es.get? i = some (fallbackEvaluation i paper criteria) ∧
      (fallbackMetadata i paper).title = some (paper.title.getD "") ∧
      (fallbackMetadata i paper).abstract_summary
        = some ((paper.abstract.getD "").take 200) ∧
      (fallbackMetadata i paper).research_domain = some "Not specified" ∧
      (fallbackMetadata i paper).methodology = some "Not specified" ∧
      (fallbackMetadata i paper).study_type = some "Not specified" ∧
      (fallbackMetadata i paper).main_findings = some "Not specified" ∧
      (fallbackMetadata i paper).journal = some "Not specified" ∧
      (fallbackMetadata i paper).year = some "Not specified" ∧
      (fallbackMetadata i paper).authors = some [] ∧
      (fallbackMetadata i paper).keywords = some [] ∧
      (fallbackMetadata i paper).sample_size = none ∧
      (fallbackMetadata i paper).limitations = none ∧
      (∀ e ∈ (fallbackEvaluation i paper criteria).evaluations,
        e.response = "Maybe" ∧
          e.reasoning = "Evaluation failed, marked as Maybe") := by
  have hlt : i < papers.length := by
    by_contra hge
    rw [List.get?_eq_none.mpr (by omega)] at hget
    cases hget
  rcases mapExcept_all_ok _ (agent2_step_ok g2 hg2) papers 0 with ⟨ms, hms, _⟩
  rcases mapExcept_all_ok _ (agent4_step_ok criteria g4 hg4) papers 0 with
    ⟨es, hes, _⟩
  refine ⟨ms, es, hms, hes, ?_, ?_, rfl, rfl, rfl, rfl, rfl, rfl, rfl, rfl,
    rfl, rfl, rfl, rfl, ?_⟩
  · rcases mapExcept_ok_get _ papers 0 ms hms i hlt with ⟨a, b, ha, hb, hstep⟩
    rw [hget] at ha
    cases ha
    rw [Nat.zero_add] at hstep
    unfold agent2_step at hstep
    rw [h2] at hstep
    cases hstep
    exact hb
  · rcases mapExcept_ok_get _ papers 0 es hes i hlt with ⟨a, b, ha, hb, hstep⟩
    rw [hget] at ha
    cases ha
    rw [Nat.zero_add] at hstep
    unfold agent4_step at hstep
    rw [h4] at hstep
    cases hstep
    exact hb
  · intro e he
    simp only [fallbackEvaluation, List.mem_map] at he
    rcases he with ⟨c, _, rfl⟩
    exact ⟨rfl, rfl⟩

/-- Witness for C5 (amended) at a one-document batch whose gateway
responses never parse. -/
theorem C5_fallback_contents_witness :
    ∃ ms es,
      agent2_extractMetadata [docA] g2unparsable = Except.ok ms ∧
      agent4_evaluatePapers [docA] criteria6 g4unparsable = Except.ok es ∧
      ms.get? 0 = some (fallbackMetadata 0 docA) ∧
      es.get? 0 = some (fallbackEvaluation 0 docA criteria6) ∧
      (fallbackMetadata 0 docA).title = some (docA.title.getD "") ∧
      (fallbackMetadata 0 docA).abstract_summary
        = some ((docA.abstract.getD "").take 200) ∧
      (fallbackMetadata 0 docA).research_domain = some "Not specified" ∧
      (fallbackMetadata 0 docA).methodology = some "Not specified" ∧
      (fallbackMetadata 0 docA).study_type = some "Not specified" ∧
      (fallbackMetadata 0 docA).main_findings = some "Not specified" ∧
      (fallbackMetadata 0 docA).journal = some "Not specified" ∧
      (fallbackMetadata 0 docA).year = some "Not specified" ∧
      (fallbackMetadata 0 docA).authors = some [] ∧
      (fallbackMetadata 0 docA).keywords = some [] ∧
      (fallbackMetadata 0 docA).sample_size = none ∧
      (fallbackMetadata 0 docA).limitations = none ∧
      (∀ e ∈ (fallbackEvaluation 0 docA criteria6).evaluations,
        e.response = "Maybe" ∧
          e.reasoning = "Evaluation failed, marked as Maybe") := by
  exact C5_fallback_contents [docA] criteria6 g2unparsable g4unparsable
    (fun j => ⟨none, rfl⟩) (fun j => ⟨none, rfl⟩) 0 docA rfl rfl rfl

/-! ## Statistics lemmas -/

/-- Response recognized by the statistics `switch` (anything else falls
through without touching the counters). -/
def respOK (e : EvalEntry) : Bool :=
  e.response = "Yes" || e.response = "Maybe" || e.response = "No"

/-- Entry counted towards criterion `c`: matching id and recognized
response. -/
def hitP (c : Nat) (e : EvalEntry) : Bool :=
  decide (e.criterion_id = c) && respOK e

/-- First-match lookup in the statistics map. -/
def getStat : StatsMap → Nat → Option CriterionStat
  | [], _ => none
  | (k, st) :: rest, c => if k = c then some st else getStat rest c

/-- Combined tally of one statistic. -/
def totalStat (st : CriterionStat) : Nat :=
  st.yes_count + st.maybe_count + st.no_count

/-- Combined tally at a key, zero when the key is absent. -/
def totalAt (stats : StatsMap) (c : Nat) : Nat :=
  match getStat stats c with
  | none => 0
  | some st => totalStat st

/-- One bump adds exactly one to the combined tally when the response is
recognized, nothing otherwise. -/
theorem totalStat_bumpStat (pe : PaperEvaluation) (e : EvalEntry)
    (st : CriterionStat) :
    totalStat (bumpStat pe e st)
      = totalStat st + (if respOK e then 1 else 0) := by
  unfold bumpStat respOK totalStat
  split_ifs with h1 h2 h3 <;> simp_all <;> try omega

/-- Lookup after the in-place map that `updateStat` performs. -/
theorem getStat_map_update (cid : Nat) (f : CriterionStat → CriterionStat) :
    ∀ (stats : StatsMap) (c : Nat),
      getStat (stats.map (updPair cid f)) c
        = if cid = c then (getStat stats c).map f else getStat stats c := by
  intro stats
  induction stats with
  | nil => intro c; simp only [List.map_nil, getStat]; split <;> rfl
  | cons hd tl ih =>
    intro c
    obtain ⟨k, st⟩ := hd
    simp only [List.map_cons, updPair]
    by_cases hk : k = cid
    · rw [if_pos hk]
      subst hk
      by_cases hc : k = c
      · subst hc
        simp [getStat]
      · simp [getStat, hc, ih c]
    · rw [if_neg hk]
      by_cases hc : k = c
      · subst hc
        have hcid : ¬ cid = k := fun h => hk h.symm
        simp [getStat, hcid]
      · simp [getStat, hk, hc, ih c]

/-- Absent keys look up to `none`. -/
theorem getStat_eq_none (stats : StatsMap) (c : Nat)
    (h : ∀ p ∈ stats, p.1 ≠ c) : getStat stats c = none := by
  induction stats with
  | nil => rfl
  | cons hd tl ih =>
    obtain ⟨k, st⟩ := hd
    have hk : k ≠ c := h (k, st) (List.mem_cons_self _ _)
    simp only [getStat, if_neg hk]
    exact ih (fun p hp => h p (List.mem_cons_of_mem _ hp))

/-- Lookup after `updateStat`: the targeted key (when present) is mapped
through `f`, every other key is untouched. -/
theorem getStat_updateStat (stats : StatsMap) (cid : Nat)
    (f : CriterionStat → CriterionStat) (c : Nat) :
    getStat (updateStat stats cid f) c
      = if cid = c then (getStat stats c).map f else getStat stats c := by
  unfold updateStat
  cases hfind : stats.find? (fun p => p.1 = cid) with
  | none =>
    have habs : getStat stats cid = none := by
      refine getStat_eq_none stats cid (fun p hp => ?_)
      have := List.find?_eq_none.mp hfind p hp
      simpa using this
    by_cases hc : cid = c
    · subst hc
      rw [habs]
      simp
    · rw [if_neg hc]
  | some p => exact getStat_map_update cid f stats c

/-- Applying one entry preserves which keys are present. -/
theorem applyEntry_isSome (pe : PaperEvaluation) (stats : StatsMap)
    (e : EvalEntry) (c : Nat) (h : (getStat stats c).isSome = true) :
    (getStat (applyEntry pe stats e) c).isSome = true := by
  unfold applyEntry
  rw [getStat_updateStat]
  split
  · simpa using h
  · exact h

/-- One entry adds exactly `hitP` to the combined tally at a present
key. -/
theorem totalAt_applyEntry (pe : PaperEvaluation) (stats : StatsMap)
    (e : EvalEntry) (c : Nat) (h : (getStat stats c).isSome = true) :
    totalAt (applyEntry pe stats e) c
      = totalAt stats c + (if hitP c e then 1 else 0) := by
  rcases Option.isSome_iff_exists.mp h with ⟨st, hst⟩
  unfold totalAt applyEntry
  rw [getStat_updateStat, hst]
  by_cases hcid : e.criterion_id = c
  · rw [if_pos hcid]
    show totalStat (bumpStat pe e st)
      = totalStat st + (if hitP c e = true then 1 else 0)
    rw [totalStat_bumpStat]
    simp [hitP, hcid]
  · rw [if_neg hcid]
    show totalStat st = totalStat st + (if hitP c e = true then 1 else 0)
    simp [hitP, hcid]

/-- One document adds exactly its `hitP` count to the combined tally at
a present key, and keeps the key present. -/
theorem totalAt_applyPaper (pe : PaperEvaluation) (c : Nat) :
    ∀ (entries : List EvalEntry) (stats : StatsMap),
      (getStat stats c).isSome = true →
      (getStat (entries.foldl (applyEntry pe) stats) c).isSome = true ∧
      totalAt (entries.foldl (applyEntry pe) stats) c
        = totalAt stats c + entries.countP (hitP c) := by
  intro entries
  induction entries with
  | nil => intro stats h; exact ⟨h, by simp⟩
  | cons e rest ih =>
    intro stats h
    have h1 := applyEntry_isSome pe stats e c h
    rcases ih (applyEntry pe stats e) h1 with ⟨hpres, htot⟩
    refine ⟨hpres, ?_⟩
    simp only [List.foldl_cons] at *
    rw [htot, totalAt_applyEntry pe stats e c h, List.countP_cons]
    omega

/-- Folding all documents: if every document contributes exactly one
counted entry for key `c`, the combined tally grows by the number of
documents. -/
theorem totalAt_run (c : Nat) :
    ∀ (evals : List PaperEvaluation) (stats : StatsMap),
      (getStat stats c).isSome = true →
      (∀ pe ∈ evals, pe.evaluations.countP (hitP c) = 1) →
      (getStat (evals.foldl applyPaper stats) c).isSome = true ∧
      totalAt (evals.foldl applyPaper stats) c
        = totalAt stats c + evals.length := by
  intro evals
  induction evals with
  | nil => intro stats h _; exact ⟨h, by simp⟩
  | cons pe rest ih =>
    intro stats h hone
    have hpe := hone pe (List.mem_cons_self _ _)
    rcases totalAt_applyPaper pe c pe.evaluations stats h with ⟨h1, ht1⟩
    rcases ih (applyPaper stats pe) h1
      (fun q hq => hone q (List.mem_cons_of_mem _ hq)) with ⟨h2, ht2⟩
    refine ⟨h2, ?_⟩
    simp only [List.foldl_cons, List.length_cons] at *
    rw [ht2]
    unfold applyPaper
    rw [ht1, hpe]
    omega

/-- A key is present exactly when some entry carries it. -/
theorem getStat_isSome_iff (stats : StatsMap) (c : Nat) :
    (getStat stats c).isSome = true ↔
      stats.any (fun p => p.1 = c) = true := by
  induction stats with
  | nil => simp [getStat]
  | cons hd tl ih =>
    obtain ⟨k, st⟩ := hd
    by_cases hk : k = c
    · subst hk
      simp [getStat]
    · simp [getStat, hk, ih]

/-- Setting a statistic makes its own key present and keeps every
present key present. -/
theorem getStat_setStat_isSome (stats : StatsMap) (id : Nat)
    (st : CriterionStat) (c : Nat)
    (h : c = id ∨ (getStat stats c).isSome = true) :
    (getStat (setStat stats id st) c).isSome = true := by
  unfold setStat
  by_cases hany : stats.any (fun p => p.1 = id) = true
  · rw [if_pos hany, getStat_map_update]
    rcases h with rfl | hpres
    · rw [if_pos rfl]
      have hpres : (getStat stats c).isSome = true :=
        (getStat_isSome_iff stats c).mpr hany
      rcases Option.isSome_iff_exists.mp hpres with ⟨q, hq⟩
      rw [hq]
      rfl
    · by_cases hid : id = c
      · rw [if_pos hid]
        rcases Option.isSome_iff_exists.mp hpres with ⟨q, hq⟩
        rw [hq]
        rfl
      · rw [if_neg hid]
        exact hpres
  · rw [if_neg hany, getStat_isSome_iff]
    rcases h with rfl | hpres
    · exact List.any_eq_true.mpr ⟨(c, st), by simp, by simp⟩
    · rcases List.any_eq_true.mp ((getStat_isSome_iff stats c).mp hpres) with
        ⟨p, hp, hpc⟩
      exact List.any_eq_true.mpr ⟨p, List.mem_append_left _ hp, hpc⟩

/-- The initialization fold keeps present keys present. -/
theorem initFold_pres (c : Nat) :
    ∀ (l : List Criterion) (acc : StatsMap),
      (getStat acc c).isSome = true →
      (getStat (l.foldl (fun acc cr => setStat acc cr.id (initStat cr)) acc) c).isSome
        = true := by
  intro l
  induction l with
  | nil => intro acc h; exact h
  | cons cr rest ih =>
    intro acc h
    exact ih (setStat acc cr.id (initStat cr))
      (getStat_setStat_isSome acc cr.id (initStat cr) c (Or.inr h))

/-- After initialization, every generated criterion id is present. -/
theorem initStats_pres :
    ∀ (l : List Criterion) (acc : StatsMap) (c : Criterion), c ∈ l →
      (getStat (l.foldl (fun acc cr => setStat acc cr.id (initStat cr)) acc) c.id).isSome
        = true := by
  intro l
  induction l with
  | nil => intro acc c hc; simp at hc
  | cons cr rest ih =>
    intro acc c hc
    rcases List.mem_cons.mp hc with rfl | hmem
    · exact initFold_pres c.id rest _
        (getStat_setStat_isSome acc c.id (initStat c) c.id (Or.inl rfl))
    · exact ih _ c hmem

/-- Looked-up statistics are entries of the map. -/
theorem getStat_mem :
    ∀ (stats : StatsMap) (c : Nat) (q : CriterionStat),
      getStat stats c = some q → (c, q) ∈ stats := by
  intro stats
  induction stats with
  | nil => intro c q h; cases h
  | cons hd tl ih =>
    intro c q h
    obtain ⟨k, st⟩ := hd
    by_cases hk : k = c
    · subst hk
      simp only [getStat, if_pos rfl] at h
      cases h
      exact List.mem_cons_self _ _
    · simp only [getStat, if_neg hk] at h
      exact List.mem_cons_of_mem _ (ih c q h)

/-- Setting a zero-total statistic keeps every entry zero-total. -/
theorem setStat_all_zero (stats : StatsMap) (id : Nat) (st : CriterionStat)
    (hst : totalStat st = 0) (hall : ∀ p ∈ stats, totalStat p.2 = 0) :
    ∀ p ∈ setStat stats id st, totalStat p.2 = 0 := by
  intro p hp
  unfold setStat at hp
  split at hp
  · rcases List.mem_map.mp hp with ⟨q, hq, hqe⟩
    obtain ⟨k, stq⟩ := q
    simp only [updPair] at hqe
    split at hqe
    · cases hqe
      exact hst
    · cases hqe
      exact hall _ hq
  · rcases List.mem_append.mp hp with hmem | hmem
    · exact hall _ hmem
    · simp at hmem
      rw [hmem]
      exact hst

/-- Every entry of the initialized map has zero total. -/
theorem initStats_all_zero :
    ∀ (l : List Criterion) (acc : StatsMap),
      (∀ p ∈ acc, totalStat p.2 = 0) →
      ∀ p ∈ l.foldl (fun acc cr => setStat acc cr.id (initStat cr)) acc,
        totalStat p.2 = 0 := by
  intro l
  induction l with
  | nil => intro acc h; exact h
  | cons cr rest ih =>
    intro acc h
    exact ih _ (setStat_all_zero acc cr.id (initStat cr) rfl h)

/-- The combined tally of every key starts at zero. -/
theorem totalAt_initStats (criteria : List Criterion) (c : Nat) :
    totalAt (initStats criteria) c = 0 := by
  unfold totalAt
  cases hget : getStat (initStats criteria) c with
  | none => rfl
  | some q =>
    exact initStats_all_zero criteria [] (by simp) (c, q)
      (getStat_mem _ c q hget)

set_option maxRecDepth 100000 in
set_option maxHeartbeats 1000000 in
/-- Counterexample to C7 as stated: fifty documents, each with exactly
six evaluations whose responses all lie in {Yes, Maybe, No} — but all
six entries carry `criterion_id = 1`, which the aggregation loop's
silent id lookup never credits to criterion 2, whose combined tally
stays 0 instead of 50. -/
theorem C7_counterexample :
    (List.replicate 50 allYesEval).length = 50 ∧
    (∀ pe ∈ List.replicate 50 allYesEval,
      pe.evaluations.length = 6 ∧ ∀ e ∈ pe.evaluations,
        e.response = "Yes" ∨ e.response = "Maybe" ∨ e.response = "No") ∧
    getStat (agent5_generateStats criteria6 (List.replicate 50 allYesEval)) 2
      = some (initStat (mkCriterion 2)) ∧
    (initStat (mkCriterion 2)).yes_count +
      (initStat (mkCriterion 2)).maybe_count +
      (initStat (mkCriterion 2)).no_count = 0 := by
  exact ⟨rfl, by decide, by decide, rfl⟩

/-- C7 (amended): after aggregation over a 50-document run, every
generated criterion's counts satisfy `yes + maybe + no = 50` — provided
each document's evaluation list contains exactly one entry per generated
criterion id with a recognized response (which well-formed evaluations
have). -/
theorem C7_stats_total (criteria : List Criterion)
    (evals : List PaperEvaluation)
    (hlen : evals.length = 50)
    (hone : ∀ pe ∈ evals, ∀ c ∈ criteria,
      pe.evaluations.countP (hitP c.id) = 1) :
    ∀ c ∈ criteria, ∃ st,
      getStat (agent5_generateStats criteria evals) c.id = some st ∧
        st.yes_count + st.maybe_count + st.no_count = 50 := by
  intro c hc
  have hpres0 : (getStat (initStats criteria) c.id).isSome = true :=
    initStats_pres criteria [] c hc
  rcases totalAt_run c.id evals (initStats criteria) hpres0
      (fun pe hpe => hone pe hpe c hc) with ⟨hpresF, htot⟩
  rw [totalAt_initStats, hlen] at htot
  rcases Option.isSome_iff_exists.mp hpresF with ⟨st, hst⟩
  refine ⟨st, hst, ?_⟩
  unfold totalAt at htot
  rw [hst] at htot
  simpa [totalStat] using htot

/-- Witness for C7 (amended): fifty identically-structured well-formed
evaluations, one entry per criterion id 1..6, checked at criterion 1. -/
theorem C7_stats_total_witness :
    mkCriterion 1 ∈ criteria6 ∧ ∃ st,
      getStat (agent5_generateStats criteria6
          (List.replicate 50 sixIdEval)) (mkCriterion 1).id = some st ∧
        st.yes_count + st.maybe_count + st.no_count = 50 := by
  refine ⟨by decide, ?_⟩
  exact C7_stats_total criteria6 (List.replicate 50 sixIdEval)
    (by decide) (by decide) (mkCriterion 1) (by decide)

/-! ## Sorting and selection lemmas -/

/-- Elements of an insertion are the inserted element or old elements. -/
theorem mem_insertDesc (x y : ScoredPaper) :
    ∀ (l : List ScoredPaper), y ∈ insertDesc x l → y = x ∨ y ∈ l := by
  intro l
  induction l with
  | nil => intro h; simpa [insertDesc] using h
  | cons z zs ih =>
    intro h
    unfold insertDesc at h
    split at h
    · rcases List.mem_cons.mp h with rfl | h'
      · exact Or.inr (List.mem_cons_self _ _)
      · rcases ih h' with rfl | h''
        · exact Or.inl rfl
        · exact Or.inr (List.mem_cons_of_mem _ h'')
    · rcases List.mem_cons.mp h with rfl | h'
      · exact Or.inl rfl
      · exact Or.inr h'

/-- The sort does not invent elements. -/
theorem mem_sortByScoreDesc (y : ScoredPaper) :
    ∀ (l acc : List ScoredPaper),
      y ∈ l.foldl (fun acc x => insertDesc x acc) acc → y ∈ acc ∨ y ∈ l := by
  intro l
  induction l with
  | nil => intro acc h; exact Or.inl h
  | cons x xs ih =>
    intro acc h
    simp only [List.foldl_cons] at h
    rcases ih (insertDesc x acc) h with h' | h'
    · rcases mem_insertDesc x y acc h' with rfl | h''
      · exact Or.inr (List.mem_cons_self _ _)
      · exact Or.inl h''
    · exact Or.inr (List.mem_cons_of_mem _ h')

/-- Inserting below everything appends at the end — on an all-equal-score
accumulator the stable sort therefore preserves order. -/
theorem insertDesc_append (x : ScoredPaper) :
    ∀ (l : List ScoredPaper),
      (∀ y ∈ l, x.eligibility_score ≤ y.eligibility_score) →
      insertDesc x l = l ++ [x] := by
  intro l
  induction l with
  | nil => intro _; rfl
  | cons z zs ih =>
    intro h
    unfold insertDesc
    rw [if_pos (h z (List.mem_cons_self _ _))]
    rw [ih (fun y hy => h y (List.mem_cons_of_mem _ hy))]
    rfl

/-- Sorting a list whose scores are all equal is the identity: the
stable sort keeps the original input order among equal scores. -/
theorem sortByScoreDesc_all_eq (s : Nat) :
    ∀ (l acc : List ScoredPaper),
      (∀ y ∈ l, y.eligibility_score = s) →
      (∀ y ∈ acc, y.eligibility_score = s) →
      l.foldl (fun acc x => insertDesc x acc) acc = acc ++ l := by
  intro l
  induction l with
  | nil => intro acc _ _; simp
  | cons x xs ih =>
    intro acc hl hacc
    simp only [List.foldl_cons]
    have hx : x.eligibility_score = s := hl x (List.mem_cons_self _ _)
    rw [insertDesc_append x acc
      (fun y hy => by rw [hx, hacc y hy])]
    rw [ih (acc ++ [x]) (fun y hy => hl y (List.mem_cons_of_mem _ hy))
      (fun y hy => by
        rcases List.mem_append.mp hy with h' | h'
        · exact hacc y h'
        · simp at h'
          rw [h', hx])]
    simp

/-- Selected papers come from the sorted list. -/
theorem selectPapersCore_subset (evals : List PaperEvaluation)
    (q : ScoredPaper) (hq : q ∈ selectPapersCore evals) :
    q ∈ sortByScoreDesc (evals.map scorePaper) := by
  simp only [selectPapersCore] at hq
  split at hq
  · exact List.mem_of_mem_filter (List.take_subset _ _ hq)
  · rcases List.mem_append.mp hq with h' | h'
    · exact List.mem_of_mem_filter h'
    · exact List.mem_of_mem_filter (List.take_subset _ _ h')

/-- C3: the selection step equals the spec's reference procedure (one
unified take-10 with eligible priority over the same stable descending
sort); and in the all-Yes scenario every document scores 1060, is
eligible, and the selection is the first 10 documents in original input
order. -/
theorem C3_selection_matches_spec (evals : List PaperEvaluation) :
    selectPapersCore evals = selectionSpec evals ∧
      (evals.length = 50 →
        (∀ pe ∈ evals, pe.evaluations.length = 6 ∧
          ∀ e ∈ pe.evaluations, e.response = "Yes") →
        (∀ pe ∈ evals, (scorePaper pe).eligibility_score = 1060 ∧
          (scorePaper pe).is_eligible = true) ∧
        selectPapersCore evals = (evals.map scorePaper).take 10) := by
  have hequiv : selectPapersCore evals = selectionSpec evals := by
    simp only [selectPapersCore, selectionSpec]
    by_cases h : 10 ≤ (List.filter (fun p => p.is_eligible)
        (sortByScoreDesc (evals.map scorePaper))).length
    · rw [if_pos h, List.take_append_eq_append_take,
        Nat.sub_eq_zero_of_le h, List.take_zero, List.append_nil]
    · rw [if_neg h, List.take_append_eq_append_take]
      congr 1
      exact (List.take_of_length_le (by omega)).symm
  refine ⟨hequiv, fun _ hyes => ?_⟩
  have hscore : ∀ pe ∈ evals, (scorePaper pe).eligibility_score = 1060 ∧
      (scorePaper pe).is_eligible = true := by
    intro pe hpe
    rcases hyes pe hpe with ⟨hlen6, hall⟩
    have hY : pe.evaluations.countP (fun e => e.response = "Yes")
        = pe.evaluations.length :=
      List.countP_eq_length.mpr (fun e he => by simp [hall e he])
    have hM : pe.evaluations.countP (fun e => e.response = "Maybe") = 0 := by
      rw [List.countP_eq_zero]
      intro e he
      simp [hall e he]
    constructor
    · show eligibilityScore (pe.evaluations.countP (fun e => e.response = "Yes"))
        (pe.evaluations.countP (fun e => e.response = "Maybe")) = 1060
      rw [hY, hlen6, hM]
      decide
    · show isEligible (pe.evaluations.countP (fun e => e.response = "Yes"))
        (pe.evaluations.countP (fun e => e.response = "Maybe")) = true
      rw [hY, hlen6, hM]
      decide
  refine ⟨hscore, ?_⟩
  have hscored : ∀ q ∈ evals.map scorePaper, q.eligibility_score = 1060 := by
    intro q hq
    rcases List.mem_map.mp hq with ⟨pe, hpe, rfl⟩
    exact (hscore pe hpe).1
  have helig : ∀ q ∈ evals.map scorePaper, q.is_eligible = true := by
    intro q hq
    rcases List.mem_map.mp hq with ⟨pe, hpe, rfl⟩
    exact (hscore pe hpe).2
  have hsort : sortByScoreDesc (evals.map scorePaper) = evals.map scorePaper := by
    unfold sortByScoreDesc
    rw [sortByScoreDesc_all_eq 1060 (evals.map scorePaper) [] hscored (by simp)]
    simp
  rw [hequiv]
  simp only [selectionSpec]
  rw [hsort, List.filter_eq_self.mpr helig,
    List.filter_eq_nil_iff.mpr (by intro q hq; simp [helig q hq]),
    List.append_nil]

/-- Witness for C3 at fifty all-Yes evaluation records. -/
theorem C3_selection_matches_spec_witness :
    selectPapersCore (List.replicate 50 allYesEval)
        = selectionSpec (List.replicate 50 allYesEval) ∧
      selectPapersCore (List.replicate 50 allYesEval)
        = ((List.replicate 50 allYesEval).map scorePaper).take 10 := by
  refine ⟨(C3_selection_matches_spec _).1, ?_⟩
  exact ((C3_selection_matches_spec _).2 (by decide) (by decide)).2

/-- Agent 2 stamps `paper_id = i + 1` and `original_index = i` on every
record it emits, parsed or fallback. -/
theorem agent2_step_ids (g2 : Nat → Except String (Option Metadata))
    (i : Nat) (paper : Document) (md : Metadata)
    (h : agent2_step g2 i paper = Except.ok md) :
    md.paper_id = i + 1 ∧ md.original_index = i := by
  unfold agent2_step at h
  split at h
  · cases h
  · cases h; exact ⟨rfl, rfl⟩
  · cases h; exact ⟨rfl, rfl⟩

/-- When the gateway echoes the requested id, every record agent 4 emits
carries `paper_id = i + 1` (the fallback does so unconditionally). -/
theorem agent4_step_id (criteria : List Criterion)
    (g4 : Nat → Except String (Option PaperEvaluation))
    (i : Nat) (paper : Document) (pe : PaperEvaluation)
    (h : agent4_step criteria g4 i paper = Except.ok pe)
    (hecho : ∀ ev, g4 i = Except.ok (some ev) → ev.paper_id = i + 1) :
    pe.paper_id = i + 1 := by
  unfold agent4_step at h
  split at h
  · cases h
  · cases h; rfl
  · rename_i ev heq
    split at h
    · cases h
      exact hecho ev heq
    · cases h; rfl

/-- Indexing a list with a cast natural number is ordinary indexing. -/
theorem listGetInt_natCast {α : Type} (xs : List α) (j : Nat) :
    listGetInt xs (j : Int) = xs.get? j := by
  unfold listGetInt
  rw [if_pos (Int.natCast_nonneg j)]
  simp

/-- Counterexample to C6 as stated: a gateway that answers every
evaluation request with `paper_id = 7` passes agent 4's structural
validation unchanged, so the record at position 1 carries paper_id 7,
not 1 + 1. -/
theorem C6_counterexample :
    agent4_evaluatePapers docs50 criteria6 g4wrongId
        = Except.ok (List.replicate 50 wrongIdEval) ∧
      (List.replicate 50 wrongIdEval).get? 1 = some wrongIdEval ∧
      wrongIdEval.paper_id = 7 ∧ (7 : Nat) ≠ 1 + 1 := by
  exact ⟨rfl, rfl, rfl, by decide⟩

/-- C6 (amended): provided every successfully parsed evaluation echoes
the requested `paper_id = i + 1` (as the prompt instructs; metadata and
fallback records need no proviso), every metadata record carries
`paper_id = position + 1` and `original_index = position`, every
evaluation record carries `paper_id = position + 1`, each selected
record is the scored version of the evaluation at some position `j` and
is joined with the document and metadata at exactly that position (the
metadata carrying the same `paper_id`), and ranks run 1..N by final
sorted position. -/
theorem C6_ids_ranks_join (papers : List Document)
    (g2 : Nat → Except String (Option Metadata))
    (criteria : List Criterion)
    (g4 : Nat → Except String (Option PaperEvaluation))
    (meta : List Metadata) (evals : List PaperEvaluation)
    (h2 : agent2_extractMetadata papers g2 = Except.ok meta)
    (h4 : agent4_evaluatePapers papers criteria g4 = Except.ok evals)
    (hecho : ∀ i ev, g4 i = Except.ok (some ev) → ev.paper_id = i + 1) :
    (∀ j md, meta.get? j = some md →
      md.paper_id = j + 1 ∧ md.original_index = j) ∧
    (∀ j pe, evals.get? j = some pe → pe.paper_id = j + 1) ∧
    (∀ p ∈ agent6_selectTopPapers papers meta evals, ∃ j pe,
      evals.get? j = some pe ∧ p.toScoredPaper = scorePaper pe ∧
      p.paper_id = j + 1 ∧ p.original_index = (j : Int) ∧
      p.original_paper = papers.get? j ∧ p.metadata = meta.get? j ∧
      (∀ md, meta.get? j = some md →
        md.paper_id = p.paper_id ∧ md.original_index = j)) ∧
    (buildSelectedOut (agent6_selectTopPapers papers meta evals)).map
        (fun o => o.rank)
      = (List.range (agent6_selectTopPapers papers meta evals).length).map
          (fun k => k + 1) := by
  have hlen2 : meta.length = papers.length := mapExcept_ok_length _ papers 0 meta h2
  have hlen4 : evals.length = papers.length := mapExcept_ok_length _ papers 0 evals h4
  have hA : ∀ j md, meta.get? j = some md →
      md.paper_id = j + 1 ∧ md.original_index = j := by
    intro j md hmd
    have hj : j < papers.length := by
      have := (List.get?_eq_some.mp hmd).1
      omega
    rcases mapExcept_ok_get _ papers 0 meta h2 j hj with ⟨a, b, _, hb, hstep⟩
    rw [hmd] at hb
    cases hb
    rw [Nat.zero_add] at hstep
    exact agent2_step_ids g2 j a md hstep
  have hB : ∀ j pe, evals.get? j = some pe → pe.paper_id = j + 1 := by
    intro j pe hpe
    have hj : j < papers.length := by
      have := (List.get?_eq_some.mp hpe).1
      omega
    rcases mapExcept_ok_get _ papers 0 evals h4 j hj with ⟨a, b, _, hb, hstep⟩
    rw [hpe] at hb
    cases hb
    rw [Nat.zero_add] at hstep
    exact agent4_step_id criteria g4 j a pe hstep (fun ev h => hecho j ev h)
  refine ⟨hA, hB, ?_, ?_⟩
  · intro p hp
    simp only [agent6_selectTopPapers, List.mem_map] at hp
    rcases hp with ⟨q, hq, rfl⟩
    have hqs : q ∈ sortByScoreDesc (evals.map scorePaper) :=
      selectPapersCore_subset evals q hq
    have hqm : q ∈ evals.map scorePaper := by
      unfold sortByScoreDesc at hqs
      rcases mem_sortByScoreDesc q (evals.map scorePaper) [] hqs with h' | h'
      · simp at h'
      · exact h'
    rcases List.mem_map.mp hqm with ⟨pe, hpe, rfl⟩
    rcases List.mem_iff_get?.mp hpe with ⟨j, hj⟩
    have hid : pe.paper_id = j + 1 := hB j pe hj
    have hoi : (scorePaper pe).original_index = (j : Int) := by
      show (pe.paper_id : Int) - 1 = (j : Int)
      rw [hid]
      push_cast
      ring
    refine ⟨j, pe, hj, rfl, ?_, hoi, ?_, ?_, ?_⟩
    · show (scorePaper pe).paper_id = j + 1
      exact hid
    · show listGetInt papers (scorePaper pe).original_index = papers.get? j
      rw [hoi, listGetInt_natCast]
    · show listGetInt meta (scorePaper pe).original_index = meta.get? j
      rw [hoi, listGetInt_natCast]
    · intro md hmd
      rcases hA j md hmd with ⟨hmd1, hmd2⟩
      constructor
      · show md.paper_id = (scorePaper pe).paper_id
        rw [hmd1]
        exact hid.symm
      · exact hmd2
  · unfold buildSelectedOut
    rw [List.map_map, ← List.enum_map_fst (agent6_selectTopPapers papers meta evals),
      List.map_map]
    rfl

/-- Witness for C6 (amended) at a one-document batch with an unparsable
metadata gateway and a faithfully echoing evaluation gateway. -/
theorem C6_ids_ranks_join_witness :
    (∀ j md, [fallbackMetadata 0 docA].get? j = some md →
      md.paper_id = j + 1 ∧ md.original_index = j) ∧
    (∀ j pe, [allYesEval].get? j = some pe → pe.paper_id = j + 1) ∧
    (∀ p ∈ agent6_selectTopPapers [docA] [fallbackMetadata 0 docA] [allYesEval],
      ∃ j pe,
      [allYesEval].get? j = some pe ∧ p.toScoredPaper = scorePaper pe ∧
      p.paper_id = j + 1 ∧ p.original_index = (j : Int) ∧
      p.original_paper = [docA].get? j ∧
      p.metadata = [fallbackMetadata 0 docA].get? j ∧
      (∀ md, [fallbackMetadata 0 docA].get? j = some md →
        md.paper_id = p.paper_id ∧ md.original_index = j)) ∧
    (buildSelectedOut (agent6_selectTopPapers [docA] [fallbackMetadata 0 docA]
        [allYesEval])).map (fun o => o.rank)
      = (List.range (agent6_selectTopPapers [docA] [fallbackMetadata 0 docA]
          [allYesEval]).length).map (fun k => k + 1) := by
  exact C6_ids_ranks_join [docA] g2unparsable criteria6 g4echo
    [fallbackMetadata 0 docA] [allYesEval] (by rfl) (by rfl)
    (fun i ev h => by cases h; rfl)

end Screening
